import Mathlib

/-!
Shallow embedding of the human-in-the-loop verification/routing state machine
from `src/notebooks/multiagent.py` (the `verify_info`, `human_input` and
`should_interrupt` nodes and the `multi_agent_verify` graph wiring), together
with proofs settling the specification claims about it.

External capabilities (the structured-output LLM extraction, the
`get_customer_id_from_identifier` database lookup, the clarifying LLM response,
and the supervisor work pipeline) are modelled as oracle function parameters:
the state machine only observes their returned values.
-/

namespace Multiagent

/-- A message record: role plus content (LangChain `AnyMessage` abstracted to
the fields the state machine reads). -/
structure Message where
  role : String
  content : String
deriving DecidableEq, Repr

/-- The Conversation State: `class State(TypedDict)` with fields
`customer_id`, `messages`, `remaining_steps`.  `customer_id` is `Option`
because `state.get("customer_id")` yields `None` when unset. -/
structure State where
  customer_id : Option String
  messages : List Message
  remaining_steps : Nat
deriving DecidableEq, Repr

/-- The external capabilities consumed by the `verify_info` node:
`structured_llm.invoke` (identifier extraction from the last message),
`get_customer_id_from_identifier` (database resolution), and `model.invoke`
(clarifying conversational response over the message history). -/
structure Oracles where
  extract_identifier : Message → String
  get_customer_id_from_identifier : String → String
  clarifying_response : List Message → Message

/-- The confirmation `SystemMessage` built in `verify_info` when resolution
succeeds. -/
def confirmation_message (customer_id : String) : Message :=
  { role := "system"
    content := "Thank you for providing your information! I was able to verify your account with customer id " ++ customer_id ++ "." }

/-- The `verify_info` node.  Returns `none` when the Python code would raise
(indexing `state["messages"][-1]` on an empty list); otherwise returns the
Conversation State after the LangGraph reducers apply the node's delta
(`customer_id` overwritten, `messages` appended via `add_messages`). -/
def verify_info (o : Oracles) (s : State) : Option State :=
  match s.customer_id with
  | some _ => some s
  | none =>
    match s.messages.getLast? with
    | none => none
    | some user_input =>
      let identifier := o.extract_identifier user_input
      let customer_id := if identifier ≠ "" then o.get_customer_id_from_identifier identifier else ""
      if customer_id ≠ "" then
        some { s with customer_id := some customer_id
                      messages := s.messages ++ [confirmation_message customer_id] }
      else
        some { s with messages := s.messages ++ [o.clarifying_response s.messages] }

/-- The `human_input` node after resumption: the externally supplied resume
value is returned as `{"messages": [user_input]}` and appended by the
`add_messages` reducer. -/
def human_input (resume_value : Message) (s : State) : State :=
  { s with messages := s.messages ++ [resume_value] }

/-- The `should_interrupt` conditional edge: `"continue"` when
`state.get("customer_id") is not None`, else `"interrupt"`. -/
def should_interrupt (s : State) : String :=
  if s.customer_id.isSome then "continue" else "interrupt"

/-- The static edges of the `multi_agent_verify` graph:
`add_edge(START, "verify_info")`, `add_edge("human_input", "verify_info")`,
`add_edge("supervisor", END)`. -/
def graph_edges : List (String × String) :=
  [("START", "verify_info"), ("human_input", "verify_info"), ("supervisor", "END")]

/-- The conditional-edge mapping of `add_conditional_edges("verify_info",
should_interrupt, {"continue": "supervisor", "interrupt": "human_input"})`. -/
def conditional_edge_map (label : String) : Option String :=
  if label = "continue" then some "supervisor"
  else if label = "interrupt" then some "human_input"
  else none

/-- Static-edge successor lookup in the graph wiring. -/
def next_static_edge (n : String) : Option String :=
  (graph_edges.find? (fun e => e.1 = n)).map Prod.snd

/-- One step of the compiled graph, as wired in the source: a pair of the
current node name and the Conversation State.  `wp` is the opaque supervisor
work pipeline.  From `"verify_info"` the node runs and the conditional edge
routes on `should_interrupt` of the resulting state; from `"human_input"`
resumption injects an arbitrary external value; from `"supervisor"` the work
pipeline runs and the static edge leads to `"END"`.  A faulting `verify_info`
(empty message list) has no outgoing step. -/
inductive CodeStep (o : Oracles) (wp : State → State) :
    String × State → String × State → Prop where
  | verify_edge {s s' : State} {n' : String} :
      verify_info o s = some s' →
      conditional_edge_map (should_interrupt s') = some n' →
      CodeStep o wp ("verify_info", s) (n', s')
  | resume_edge (v : Message) {s : State} {n' : String} :
      next_static_edge "human_input" = some n' →
      CodeStep o wp ("human_input", s) (n', human_input v s)
  | work_edge {s : State} {n' : String} :
      next_static_edge "supervisor" = some n' →
      CodeStep o wp ("supervisor", s) (n', wp s)

/-- Executions of the compiled graph: reflexive-transitive closure of
`CodeStep`. -/
def CodeSteps (o : Oracles) (wp : State → State) :
    String × State → String × State → Prop :=
  Relation.ReflTransGen (CodeStep o wp)

/-- The abstract control states of the specification's state machine
(section 4.4): `verify`, `suspended`, `working`, `done`. -/
inductive Phase where
  | verify
  | suspended
  | working
  | done
deriving DecidableEq, Repr

/-- An abstract machine configuration of the specification: control phase plus
Conversation State. -/
structure Machine where
  phase : Phase
  conv : State
deriving DecidableEq, Repr

/-- Modelled from the spec: the transition table of section 4.4 —
`verify → working` when the Routing Decision returns `continue`,
`verify → suspended` when it returns `interrupt`, `suspended → verify` on
external resumption, `working → done` after the Work Pipeline completes, and
no other transitions.  Stated as a relation on `Machine` to be compared with
the code-derived `CodeStep`. -/
inductive SpecStep (o : Oracles) (wp : State → State) : Machine → Machine → Prop where
  | to_working {s s' : State} :
      verify_info o s = some s' →
      should_interrupt s' = "continue" →
      SpecStep o wp ⟨Phase.verify, s⟩ ⟨Phase.working, s'⟩
  | to_suspended {s s' : State} :
      verify_info o s = some s' →
      should_interrupt s' = "interrupt" →
      SpecStep o wp ⟨Phase.verify, s⟩ ⟨Phase.suspended, s'⟩
  | to_verify (v : Message) {s : State} :
      SpecStep o wp ⟨Phase.suspended, s⟩ ⟨Phase.verify, human_input v s⟩
  | to_done {s : State} :
      SpecStep o wp ⟨Phase.working, s⟩ ⟨Phase.done, wp s⟩

/-- The correspondence between the graph's node names and the specification's
abstract control states. -/
def node_phase : String → Option Phase
  | "verify_info" => some Phase.verify
  | "human_input" => some Phase.suspended
  | "supervisor" => some Phase.working
  | "END" => some Phase.done
  | _ => none

/-- Concrete oracles used for witnesses: extraction reads the message content,
resolution is the identity on identifiers, clarification is a fixed prompt. -/
def demo_oracles : Oracles :=
  { extract_identifier := fun m => m.content
    get_customer_id_from_identifier := fun i => i
    clarifying_response := fun _ =>
      { role := "ai", content := "Could you please provide your customer ID, email, or phone number?" } }

/-- Concrete work pipeline used for witnesses. -/
def demo_pipeline : State → State := fun s => s

/-- Concrete resume message used for witnesses. -/
def demo_message : Message := { role := "human", content := "10" }

/-- A Conversation State whose account is already verified. -/
def demo_verified_state : State :=
  { customer_id := some "42", messages := [], remaining_steps := 3 }

/-- A Conversation State with an unset account and one user message. -/
def demo_unverified_state : State :=
  { customer_id := none, messages := [demo_message], remaining_steps := 5 }

/-- The Conversation State produced by the Verification Gate from
`demo_unverified_state` under `demo_oracles`. -/
def demo_resolved_state : State :=
  { customer_id := some "10"
    messages := [demo_message, confirmation_message "10"]
    remaining_steps := 5 }

/-- Predicate: the account identifier is unset or a non-empty string. -/
def good_cid (s : State) : Prop :=
  s.customer_id = none ∨ ∃ a, a ≠ "" ∧ s.customer_id = some a

theorem verify_info_pass (o : Oracles) {s : State} {a : String}
    (h : s.customer_id = some a) : verify_info o s = some s := by
  unfold verify_info
  rw [h]

theorem verify_info_cases (o : Oracles) {s s' : State}
    (h : verify_info o s = some s') :
    (∃ a, s.customer_id = some a ∧ s' = s) ∨
    (s.customer_id = none ∧ ∃ last, s.messages.getLast? = some last ∧
      ((o.extract_identifier last ≠ "" ∧
        o.get_customer_id_from_identifier (o.extract_identifier last) ≠ "" ∧
        s' = { s with
          customer_id := some (o.get_customer_id_from_identifier (o.extract_identifier last))
          messages := s.messages ++
            [confirmation_message (o.get_customer_id_from_identifier (o.extract_identifier last))] }) ∨
       ((o.extract_identifier last = "" ∨
         o.get_customer_id_from_identifier (o.extract_identifier last) = "") ∧
        s' = { s with messages := s.messages ++ [o.clarifying_response s.messages] }))) := by
  unfold verify_info at h
  cases hc : s.customer_id with
  | some a =>
      rw [hc] at h
      exact Or.inl ⟨a, rfl, (Option.some.inj h).symm⟩
  | none =>
      rw [hc] at h
      cases hl : s.messages.getLast? with
      | none =>
          rw [hl] at h
          exact absurd h (by simp)
      | some last =>
          rw [hl] at h
          refine Or.inr ⟨rfl, last, rfl, ?_⟩
          by_cases hid : o.extract_identifier last = ""
          · simp only [hid, ne_eq, not_true_eq_false, if_false, if_neg] at h
            exact Or.inr ⟨Or.inl hid, (Option.some.inj h).symm⟩
          · by_cases hres : o.get_customer_id_from_identifier (o.extract_identifier last) = ""
            · simp only [hid, hres, ne_eq, not_false_eq_true, if_true, not_true_eq_false,
                if_false] at h
              exact Or.inr ⟨Or.inr hres, (Option.some.inj h).symm⟩
            · simp only [hid, hres, ne_eq, not_false_eq_true, if_true] at h
              exact Or.inl ⟨hid, hres, (Option.some.inj h).symm⟩

theorem verify_info_cid_of_some (o : Oracles) {s s' : State} {a : String}
    (hv : verify_info o s = some s') (ha : s.customer_id = some a) :
    s'.customer_id = some a := by
  rw [verify_info_pass o ha] at hv
  exact (Option.some.inj hv) ▸ ha

theorem verify_info_cid_of_none (o : Oracles) {s s' : State}
    (hv : verify_info o s = some s') (ha : s.customer_id = none) :
    s'.customer_id = none ∨ ∃ b, b ≠ "" ∧ s'.customer_id = some b := by
  rcases verify_info_cases o hv with ⟨a, hc, _⟩ | ⟨_, last, _, hbr⟩
  · rw [ha] at hc
    exact absurd hc (by simp)
  · rcases hbr with ⟨_, hres, hs⟩ | ⟨_, hs⟩
    · exact Or.inr ⟨_, hres, by rw [hs]⟩
    · exact Or.inl (by rw [hs]; exact ha)

theorem verify_info_good (o : Oracles) {s s' : State}
    (hv : verify_info o s = some s') (hg : good_cid s) : good_cid s' := by
  rcases hg with hn | ⟨a, hne, ha⟩
  · exact verify_info_cid_of_none o hv hn
  · exact Or.inr ⟨a, hne, verify_info_cid_of_some o hv ha⟩

theorem verify_info_steps (o : Oracles) {s s' : State}
    (hv : verify_info o s = some s') :
    s'.remaining_steps = s.remaining_steps := by
  rcases verify_info_cases o hv with ⟨_, _, hs⟩ | ⟨_, _, _, hbr⟩
  · rw [hs]
  · rcases hbr with ⟨_, _, hs⟩ | ⟨_, hs⟩ <;> rw [hs]

theorem codeStep_inv (o : Oracles) (wp : State → State) {m m' : String × State}
    (h : CodeStep o wp m m') :
    (m.1 = "verify_info" ∧ verify_info o m.2 = some m'.2 ∧
       conditional_edge_map (should_interrupt m'.2) = some m'.1) ∨
    (m.1 = "human_input" ∧ m'.1 = "verify_info" ∧ ∃ v, m'.2 = human_input v m.2) ∨
    (m.1 = "supervisor" ∧ m'.1 = "END" ∧ m'.2 = wp m.2) := by
  cases h with
  | verify_edge hv hn => exact Or.inl ⟨rfl, hv, hn⟩
  | resume_edge v hn =>
      refine Or.inr (Or.inl ⟨rfl, ?_, v, rfl⟩)
      have he : next_static_edge "human_input" = some "verify_info" := rfl
      rw [he] at hn
      exact (Option.some.inj hn).symm
  | work_edge hn =>
      refine Or.inr (Or.inr ⟨rfl, ?_, rfl⟩)
      have he : next_static_edge "supervisor" = some "END" := rfl
      rw [he] at hn
      exact (Option.some.inj hn).symm

theorem codeStep_not_from_end (o : Oracles) (wp : State → State) {s : State}
    {t : String × State} (h : CodeStep o wp (("END", s) : String × State) t) : False := by
  rcases codeStep_inv o wp h with ⟨h1, _⟩ | ⟨h1, _⟩ | ⟨h1, _⟩ <;> simp at h1

theorem should_interrupt_of_some {s : State} {a : String}
    (h : s.customer_id = some a) : should_interrupt s = "continue" := by
  unfold should_interrupt
  rw [h]
  rfl

theorem should_interrupt_of_none {s : State}
    (h : s.customer_id = none) : should_interrupt s = "interrupt" := by
  unfold should_interrupt
  rw [h]
  rfl

theorem codeSteps_cid_some (o : Oracles) (wp : State → State) (a : String)
    {m m' : String × State} (h : CodeSteps o wp m m')
    (ha : m.2.customer_id = some a) :
    m'.1 = "END" ∨ m'.2.customer_id = some a := by
  induction h with
  | refl => exact Or.inr ha
  | tail hsteps hstep ih =>
      rcases ih with hEnd | hcid
      · rename_i b c
        obtain ⟨bn, bs⟩ := b
        have hbn : bn = "END" := hEnd
        subst hbn
        exact absurd hstep (fun hh => codeStep_not_from_end o wp hh)
      · rcases codeStep_inv o wp hstep with ⟨_, hv, hn⟩ | ⟨_, _, v, hs⟩ | ⟨_, hn, _⟩
        · right
          exact verify_info_cid_of_some o hv hcid
        · right
          rw [hs]
          exact hcid
        · left
          assumption

theorem codeSteps_good (o : Oracles) (wp : State → State)
    {m m' : String × State} (h : CodeSteps o wp m m')
    (hg : good_cid m.2) : m'.1 = "END" ∨ good_cid m'.2 := by
  induction h with
  | refl => exact Or.inr hg
  | tail hsteps hstep ih =>
      rcases ih with hEnd | hgood
      · rename_i b c
        obtain ⟨bn, bs⟩ := b
        have hbn : bn = "END" := hEnd
        subst hbn
        exact absurd hstep (fun hh => codeStep_not_from_end o wp hh)
      · rcases codeStep_inv o wp hstep with ⟨_, hv, hn⟩ | ⟨_, _, v, hs⟩ | ⟨_, hn, _⟩
        · right
          exact verify_info_good o hv hgood
        · right
          rw [hs]
          exact hgood
        · left
          assumption

theorem node_phase_inv {n : String} {p : Phase} (h : node_phase n = some p) :
    (n = "verify_info" ∧ p = Phase.verify) ∨ (n = "human_input" ∧ p = Phase.suspended) ∨
    (n = "supervisor" ∧ p = Phase.working) ∨ (n = "END" ∧ p = Phase.done) := by
  unfold node_phase at h
  split at h <;> simp_all

theorem node_phase_verify_inv {n : String} (h : node_phase n = some Phase.verify) :
    n = "verify_info" := by
  rcases node_phase_inv h with ⟨h1, _⟩ | ⟨_, h2⟩ | ⟨_, h2⟩ | ⟨_, h2⟩
  · exact h1
  all_goals exact absurd h2 (by decide)

theorem node_phase_suspended_inv {n : String} (h : node_phase n = some Phase.suspended) :
    n = "human_input" := by
  rcases node_phase_inv h with ⟨_, h2⟩ | ⟨h1, _⟩ | ⟨_, h2⟩ | ⟨_, h2⟩
  · exact absurd h2 (by decide)
  · exact h1
  all_goals exact absurd h2 (by decide)

theorem node_phase_working_inv {n : String} (h : node_phase n = some Phase.working) :
    n = "supervisor" := by
  rcases node_phase_inv h with ⟨_, h2⟩ | ⟨_, h2⟩ | ⟨h1, _⟩ | ⟨_, h2⟩
  · exact absurd h2 (by decide)
  · exact absurd h2 (by decide)
  · exact h1
  · exact absurd h2 (by decide)

theorem node_phase_done_inv {n : String} (h : node_phase n = some Phase.done) :
    n = "END" := by
  rcases node_phase_inv h with ⟨_, h2⟩ | ⟨_, h2⟩ | ⟨_, h2⟩ | ⟨h1, _⟩
  · exact absurd h2 (by decide)
  · exact absurd h2 (by decide)
  · exact absurd h2 (by decide)
  · exact h1

/-- C1: the Routing Decision `should_interrupt` is a pure function of the
Conversation State (it is a Lean function, hence deterministic and
side-effect-free); it returns one of the two labels `"continue"` and
`"interrupt"`, and returns `"continue"` iff `customer_id` is set (non-null),
`"interrupt"` iff it is unset. -/
theorem routing_decision_continue_iff_account_set : ∀ s : State,
    (should_interrupt s = "continue" ↔ s.customer_id ≠ none) ∧
    (should_interrupt s = "interrupt" ↔ s.customer_id = none) ∧
    (should_interrupt s = "continue" ∨ should_interrupt s = "interrupt") := by
  intro s
  cases hc : s.customer_id with
  | none =>
      rw [should_interrupt_of_none hc]
      refine ⟨?_, ?_, Or.inr rfl⟩ <;> simp
  | some a =>
      rw [should_interrupt_of_some hc]
      refine ⟨?_, ?_, Or.inl rfl⟩ <;> simp

/-- Witness for C1 at concrete states on both sides of the decision. -/
theorem routing_decision_continue_iff_account_set_witness :
    should_interrupt demo_verified_state = "continue" ∧
    should_interrupt demo_unverified_state = "interrupt" :=
  ⟨(routing_decision_continue_iff_account_set demo_verified_state).1.mpr (by decide),
   (routing_decision_continue_iff_account_set demo_unverified_state).2.1.mpr rfl⟩

/-- C5: when `customer_id` is already set, `verify_info` is a pass-through:
the returned Conversation State is exactly the input (no message appended,
`customer_id` and every other field unchanged), whatever `messages` holds. -/
theorem verification_gate_pass_through :
    ∀ (o : Oracles) (s : State) (a : String),
    s.customer_id = some a → verify_info o s = some s := by
  intro o s a h
  exact verify_info_pass o h

/-- Witness for C5 at the concrete verified state. -/
theorem verification_gate_pass_through_witness :
    verify_info demo_oracles demo_verified_state = some demo_verified_state :=
  verification_gate_pass_through demo_oracles demo_verified_state "42" rfl

/-- C3: `customer_id` is monotone across the state machine's own operations:
the Suspend Node (`human_input`) never changes it, and `verify_info` preserves
a set value exactly and, from unset, either leaves it unset or sets it to a
non-empty value (the Routing Decision is a pure function and touches no
state). -/
theorem account_id_monotone :
    ∀ (o : Oracles) (v : Message) (s s' : State) (a : String),
    ((human_input v s).customer_id = s.customer_id) ∧
    (verify_info o s = some s' → s.customer_id = some a → s'.customer_id = some a) ∧
    (verify_info o s = some s' → s.customer_id = none →
      s'.customer_id = none ∨ ∃ b, b ≠ "" ∧ s'.customer_id = some b) := by
  intro o v s s' a
  refine ⟨rfl, ?_, ?_⟩
  · intro hv ha
    exact verify_info_cid_of_some o hv ha
  · intro hv ha
    exact verify_info_cid_of_none o hv ha

/-- Witness for C3: the hypotheses are discharged at concrete states, once in
the already-set case and once in the unset case. -/
theorem account_id_monotone_witness :
    ((human_input demo_message demo_verified_state).customer_id =
      demo_verified_state.customer_id) ∧
    demo_verified_state.customer_id = some "42" ∧
    (demo_resolved_state.customer_id = none ∨
      ∃ b, b ≠ "" ∧ demo_resolved_state.customer_id = some b) :=
  ⟨(account_id_monotone demo_oracles demo_message demo_verified_state
      demo_verified_state "42").1,
   (account_id_monotone demo_oracles demo_message demo_verified_state
      demo_verified_state "42").2.1 rfl rfl,
   (account_id_monotone demo_oracles demo_message demo_unverified_state
      demo_resolved_state "42").2.2 rfl rfl⟩

/-- C10: neither `verify_info` (when it returns) nor `human_input` changes the
`remaining_steps` field of the Conversation State (the Routing Decision
returns a label and no state). -/
theorem remaining_steps_frame :
    ∀ (o : Oracles) (v : Message) (s s' : State),
    (verify_info o s = some s' → s'.remaining_steps = s.remaining_steps) ∧
    (human_input v s).remaining_steps = s.remaining_steps := by
  intro o v s s'
  exact ⟨fun hv => verify_info_steps o hv, rfl⟩

/-- Witness for C10 at a concrete unverified state. -/
theorem remaining_steps_frame_witness :
    demo_resolved_state.remaining_steps = demo_unverified_state.remaining_steps ∧
    (human_input demo_message demo_unverified_state).remaining_steps =
      demo_unverified_state.remaining_steps :=
  ⟨(remaining_steps_frame demo_oracles demo_message demo_unverified_state
      demo_resolved_state).1 rfl,
   (remaining_steps_frame demo_oracles demo_message demo_unverified_state
      demo_resolved_state).2⟩

/-- C2 counterexample: at the Conversation State with `customer_id` unset and
an empty `messages` list, `verify_info` faults (Python indexes
`state["messages"][-1]` on an empty list), so it does not append exactly one
message as the claim states for every state with the account unset. -/
theorem verification_gate_empty_log_faults_cex :
    (({ customer_id := none, messages := [], remaining_steps := 24 } : State)).customer_id
        = none ∧
    verify_info demo_oracles
      { customer_id := none, messages := [], remaining_steps := 24 } = none :=
  ⟨rfl, rfl⟩

/-- C2 amended: for every Conversation State with `customer_id` unset and a
NON-EMPTY message list, `verify_info` appends exactly one message: when
extraction on the most recent message is non-empty and resolution of it is
non-empty, it sets `customer_id` to the resolved value and appends the
confirmation message; otherwise it appends the clarifying message and leaves
`customer_id` unset.  (On an empty message list it faults instead.) -/
theorem verification_gate_unset_account_appends_one :
    ∀ (o : Oracles) (s : State), s.customer_id = none → s.messages ≠ [] →
    ∃ last, s.messages.getLast? = some last ∧
      ((o.extract_identifier last ≠ "" ∧
        o.get_customer_id_from_identifier (o.extract_identifier last) ≠ "" ∧
        verify_info o s = some { s with
          customer_id := some (o.get_customer_id_from_identifier (o.extract_identifier last))
          messages := s.messages ++
            [confirmation_message
              (o.get_customer_id_from_identifier (o.extract_identifier last))] }) ∨
       ((o.extract_identifier last = "" ∨
         o.get_customer_id_from_identifier (o.extract_identifier last) = "") ∧
        verify_info o s = some { s with
          messages := s.messages ++ [o.clarifying_response s.messages] })) := by
  intro o s hc hm
  have hlast : ∃ last, s.messages.getLast? = some last := by
    cases hl : s.messages.getLast? with
    | some a => exact ⟨a, rfl⟩
    | none =>
        cases hms : s.messages with
        | nil => exact absurd hms hm
        | cons a as =>
            rw [hms] at hl
            rw [List.getLast?_eq_getLast (a :: as) (by simp)] at hl
            exact absurd hl (by simp)
  obtain ⟨last, hlast⟩ := hlast
  refine ⟨last, hlast, ?_⟩
  unfold verify_info
  rw [hc, hlast]
  by_cases hid : o.extract_identifier last = ""
  · refine Or.inr ⟨Or.inl hid, ?_⟩
    simp only [hid, ne_eq, not_true_eq_false, if_false, if_neg]
  · by_cases hres : o.get_customer_id_from_identifier (o.extract_identifier last) = ""
    · refine Or.inr ⟨Or.inr hres, ?_⟩
      simp only [hid, hres, ne_eq, not_false_eq_true, if_true, not_true_eq_false, if_false]
    · refine Or.inl ⟨hid, hres, ?_⟩
      simp only [hid, hres, ne_eq, not_false_eq_true, if_true]

/-- Witness for C2's amended theorem at the concrete unverified state: the
extraction yields "10", resolution yields "10", and the gate sets the account
and appends the confirmation. -/
theorem verification_gate_unset_account_appends_one_witness :
    ∃ last, demo_unverified_state.messages.getLast? = some last ∧
      ((demo_oracles.extract_identifier last ≠ "" ∧
        demo_oracles.get_customer_id_from_identifier
          (demo_oracles.extract_identifier last) ≠ "" ∧
        verify_info demo_oracles demo_unverified_state =
          some { demo_unverified_state with
            customer_id := some (demo_oracles.get_customer_id_from_identifier
              (demo_oracles.extract_identifier last))
            messages := demo_unverified_state.messages ++
              [confirmation_message (demo_oracles.get_customer_id_from_identifier
                (demo_oracles.extract_identifier last))] }) ∨
       ((demo_oracles.extract_identifier last = "" ∨
         demo_oracles.get_customer_id_from_identifier
           (demo_oracles.extract_identifier last) = "") ∧
        verify_info demo_oracles demo_unverified_state =
          some { demo_unverified_state with
            messages := demo_unverified_state.messages ++
              [demo_oracles.clarifying_response demo_unverified_state.messages] })) :=
  verification_gate_unset_account_appends_one demo_oracles demo_unverified_state
    rfl (by simp [demo_unverified_state])

/-- C6 counterexample: at the Conversation State with an empty `messages` list
and `customer_id` unset, `verify_info` does not succeed — it faults on reading
the most recent message — so no clarifying message is appended; the Routing
Decision on that state is `"interrupt"`. -/
theorem scenario_a_empty_log_faults_cex :
    verify_info demo_oracles
        { customer_id := none, messages := [], remaining_steps := 25 } = none ∧
    should_interrupt { customer_id := none, messages := [], remaining_steps := 25 }
        = "interrupt" :=
  ⟨rfl, rfl⟩

/-- C6 amended: on the Conversation State with empty `messages` and
`customer_id` unset, `verify_info` faults (uncaught index error reading the
most recent message of an empty list), so no message is appended and the graph
takes no transition from the `verify_info` node; the Routing Decision on that
unchanged state is `"interrupt"`. -/
theorem scenario_a_empty_log_amended :
    ∀ (o : Oracles) (wp : State → State) (k : Nat),
    verify_info o { customer_id := none, messages := [], remaining_steps := k } = none ∧
    should_interrupt { customer_id := none, messages := [], remaining_steps := k }
        = "interrupt" ∧
    (∀ t, ¬ CodeStep o wp
      (("verify_info", { customer_id := none, messages := [], remaining_steps := k }) :
        String × State) t) := by
  intro o wp k
  refine ⟨rfl, rfl, ?_⟩
  intro t h
  rcases codeStep_inv o wp h with ⟨_, hv, _⟩ | ⟨h1, _⟩ | ⟨h1, _⟩
  · exact Option.noConfusion
      ((rfl : verify_info o
        { customer_id := none, messages := [], remaining_steps := k } = none).symm.trans hv)
  · simp at h1
  · simp at h1

/-- Witness for C6's amended theorem at a concrete budget value. -/
theorem scenario_a_empty_log_amended_witness :
    verify_info demo_oracles
        { customer_id := none, messages := [], remaining_steps := 7 } = none ∧
    should_interrupt { customer_id := none, messages := [], remaining_steps := 7 }
        = "interrupt" :=
  ⟨(scenario_a_empty_log_amended demo_oracles demo_pipeline 7).1,
   (scenario_a_empty_log_amended demo_oracles demo_pipeline 7).2.1⟩

/-- C8: resumption through `human_input` appends the externally supplied value
as exactly one new message (prior entries and `customer_id` and
`remaining_steps` untouched), and the only outgoing graph transition of the
`human_input` node leads back to the `verify_info` node with exactly that
updated state. -/
theorem resume_appends_and_returns_to_verify :
    ∀ (o : Oracles) (wp : State → State) (v : Message) (s : State),
    (human_input v s).messages = s.messages ++ [v] ∧
    (human_input v s).customer_id = s.customer_id ∧
    (human_input v s).remaining_steps = s.remaining_steps ∧
    CodeStep o wp (("human_input", s) : String × State) ("verify_info", human_input v s) ∧
    (∀ t, CodeStep o wp (("human_input", s) : String × State) t →
      ∃ w, t = (("verify_info", human_input w s) : String × State)) := by
  intro o wp v s
  refine ⟨rfl, rfl, rfl, CodeStep.resume_edge v rfl, ?_⟩
  intro t h
  rcases codeStep_inv o wp h with ⟨h1, _⟩ | ⟨_, h2, w, h3⟩ | ⟨h1, _⟩
  · simp at h1
  · refine ⟨w, ?_⟩
    obtain ⟨tn, ts⟩ := t
    have htn : tn = "verify_info" := h2
    have hts : ts = human_input w s := h3
    rw [htn, hts]
  · simp at h1

/-- Witness for C8's conditional part at a concrete resumption. -/
theorem resume_appends_and_returns_to_verify_witness :
    CodeStep demo_oracles demo_pipeline
      (("human_input", demo_verified_state) : String × State)
      ("verify_info", human_input demo_message demo_verified_state) ∧
    (∃ w, (("verify_info", human_input demo_message demo_verified_state) :
        String × State) = ("verify_info", human_input w demo_verified_state)) :=
  ⟨(resume_appends_and_returns_to_verify demo_oracles demo_pipeline demo_message
      demo_verified_state).2.2.2.1,
   (resume_appends_and_returns_to_verify demo_oracles demo_pipeline demo_message
      demo_verified_state).2.2.2.2 _
     ((resume_appends_and_returns_to_verify demo_oracles demo_pipeline demo_message
        demo_verified_state).2.2.2.1)⟩

/-- C4: in any execution of the compiled graph starting from a configuration
whose `customer_id` is a non-empty value, every later visit to the
`verify_info` node has `verify_info` pass through and the Routing Decision
return `"continue"`, and no transition taken after that point ever enters the
`human_input` (Suspend) node. -/
theorem account_set_suspend_unreachable :
    ∀ (o : Oracles) (wp : State → State) (a : String) (n₀ : String) (s₀ : State),
    s₀.customer_id = some a → a ≠ "" →
    ((∀ n s, CodeSteps o wp (n₀, s₀) (n, s) → n = "verify_info" →
        verify_info o s = some s ∧ should_interrupt s = "continue") ∧
     (∀ m₁ m₂, CodeSteps o wp (n₀, s₀) m₁ → CodeStep o wp m₁ m₂ →
        m₂.1 ≠ "human_input")) := by
  intro o wp a n₀ s₀ ha hne
  constructor
  · intro n s hsteps hn
    rcases codeSteps_cid_some o wp a hsteps ha with hEnd | hcid
    · rw [hn] at hEnd
      simp at hEnd
    · have hcid' : s.customer_id = some a := hcid
      exact ⟨verify_info_pass o hcid', should_interrupt_of_some hcid'⟩
  · intro m₁ m₂ hsteps hstep
    rcases codeSteps_cid_some o wp a hsteps ha with hEnd | hcid
    · obtain ⟨n₁, s₁⟩ := m₁
      have hn₁ : n₁ = "END" := hEnd
      subst hn₁
      exact absurd hstep (fun hh => codeStep_not_from_end o wp hh)
    · rcases codeStep_inv o wp hstep with ⟨_, hv, hn⟩ | ⟨_, h2, _⟩ | ⟨_, h2, _⟩
      · have hcid₂ : m₂.2.customer_id = some a := verify_info_cid_of_some o hv hcid
        rw [should_interrupt_of_some hcid₂] at hn
        have hc : conditional_edge_map "continue" = some "supervisor" := rfl
        rw [hc] at hn
        have hm₂ : m₂.1 = "supervisor" := (Option.some.inj hn).symm
        rw [hm₂]
        simp
      · rw [h2]
        simp
      · rw [h2]
        simp

/-- Witness for C4 at a concrete verified start: the reflexive execution stays
at `verify_info` with the gate passing through and routing `"continue"`, and
the one enabled transition goes to the `supervisor` node, not `human_input`. -/
theorem account_set_suspend_unreachable_witness :
    (verify_info demo_oracles demo_verified_state = some demo_verified_state ∧
     should_interrupt demo_verified_state = "continue") ∧
    ((("supervisor", demo_verified_state) : String × State)).1 ≠ "human_input" :=
  ⟨(account_set_suspend_unreachable demo_oracles demo_pipeline "42" "verify_info"
      demo_verified_state rfl (by decide)).1 "verify_info" demo_verified_state
      Relation.ReflTransGen.refl rfl,
   (account_set_suspend_unreachable demo_oracles demo_pipeline "42" "verify_info"
      demo_verified_state rfl (by decide)).2 ("verify_info", demo_verified_state)
      ("supervisor", demo_verified_state) Relation.ReflTransGen.refl
      (CodeStep.verify_edge (verify_info_pass demo_oracles rfl)
        (by rw [should_interrupt_of_some (rfl : demo_verified_state.customer_id = some "42")]
            decide))⟩

/-- C7 counterexample: the Conversation State whose `customer_id` is the EMPTY
string makes the Routing Decision return `"continue"` even though the account
identifier is not a non-empty string, refuting the claim over every
Conversation State. -/
theorem continue_with_empty_account_cex :
    should_interrupt { customer_id := some "", messages := [], remaining_steps := 0 }
        = "continue" ∧
    ({ customer_id := some "", messages := [], remaining_steps := 0 } : State).customer_id
        = some "" :=
  ⟨rfl, rfl⟩

/-- C7 amended: for every configuration reachable by the compiled graph from
an entry state whose `customer_id` is unset, and which is not the terminal
`END` node, if the Routing Decision returns `"continue"` then `customer_id`
is a non-empty string (the Verification Gate only ever sets non-empty
values). -/
theorem reachable_continue_nonempty_account :
    ∀ (o : Oracles) (wp : State → State) (s₀ : State) (n : String) (s : State),
    s₀.customer_id = none →
    CodeSteps o wp ("verify_info", s₀) (n, s) →
    n ≠ "END" →
    should_interrupt s = "continue" →
    ∃ a, s.customer_id = some a ∧ a ≠ "" := by
  intro o wp s₀ n s h0 hsteps hnE hcont
  rcases codeSteps_good o wp hsteps (Or.inl h0) with hEnd | hgood
  · exact absurd hEnd hnE
  · rcases hgood with hn | ⟨a, hane, hsome⟩
    · rw [should_interrupt_of_none hn] at hcont
      exact absurd hcont (by decide)
    · exact ⟨a, hsome, hane⟩

/-- Witness for C7's amended theorem: one `verify_info` step from the concrete
unverified state reaches the `supervisor` node with account "10". -/
theorem reachable_continue_nonempty_account_witness :
    ∃ a, demo_resolved_state.customer_id = some a ∧ a ≠ "" :=
  reachable_continue_nonempty_account demo_oracles demo_pipeline
    demo_unverified_state "supervisor" demo_resolved_state rfl
    (Relation.ReflTransGen.single (CodeStep.verify_edge rfl rfl))
    (by decide)
    (should_interrupt_of_some (rfl : demo_resolved_state.customer_id = some "10"))

/-- C9: the compiled graph's step relation corresponds, through the
node-name/phase dictionary, exactly to the transition table of the
specification (`verify → working` on `"continue"`, `verify → suspended` on
`"interrupt"`, `suspended → verify` on resumption, `working → done`); the
entry edge leads to the `verify` node and the terminal `END` node has no
outgoing transition. -/
theorem graph_wiring_matches_transition_table :
    ∀ (o : Oracles) (wp : State → State),
    (∀ (n n' : String) (s s' : State) (p p' : Phase),
       node_phase n = some p → node_phase n' = some p' →
       (CodeStep o wp ((n, s) : String × State) (n', s') ↔
        SpecStep o wp ⟨p, s⟩ ⟨p', s'⟩)) ∧
    next_static_edge "START" = some "verify_info" ∧
    node_phase "verify_info" = some Phase.verify ∧
    node_phase "END" = some Phase.done ∧
    (∀ (s : State) (t : String × State),
      ¬ CodeStep o wp (("END", s) : String × State) t) := by
  intro o wp
  refine ⟨?_, rfl, rfl, rfl, fun s t h => codeStep_not_from_end o wp h⟩
  intro n n' s s' p p' hp hp'
  constructor
  · intro h
    rcases codeStep_inv o wp h with ⟨h1, hv, hn⟩ | ⟨h1, h2, v, h3⟩ | ⟨h1, h2, h3⟩
    · have hn1 : n = "verify_info" := h1
      rw [hn1] at hp
      have hpv : p = Phase.verify := by
        have : node_phase "verify_info" = some Phase.verify := rfl
        rw [this] at hp
        exact (Option.some.inj hp).symm
      cases hsc : s'.customer_id with
      | none =>
          have hsi : should_interrupt s' = "interrupt" := should_interrupt_of_none hsc
          have hn' : n' = "human_input" := by
            have hv' : conditional_edge_map (should_interrupt s') = some n' := hn
            rw [hsi] at hv'
            have hc : conditional_edge_map "interrupt" = some "human_input" := rfl
            rw [hc] at hv'
            exact (Option.some.inj hv').symm
          rw [hn'] at hp'
          have hps : p' = Phase.suspended := by
            have : node_phase "human_input" = some Phase.suspended := rfl
            rw [this] at hp'
            exact (Option.some.inj hp').symm
          rw [hpv, hps]
          exact SpecStep.to_suspended hv hsi
      | some a =>
          have hsi : should_interrupt s' = "continue" := should_interrupt_of_some hsc
          have hn' : n' = "supervisor" := by
            have hv' : conditional_edge_map (should_interrupt s') = some n' := hn
            rw [hsi] at hv'
            have hc : conditional_edge_map "continue" = some "supervisor" := rfl
            rw [hc] at hv'
            exact (Option.some.inj hv').symm
          rw [hn'] at hp'
          have hpw : p' = Phase.working := by
            have : node_phase "supervisor" = some Phase.working := rfl
            rw [this] at hp'
            exact (Option.some.inj hp').symm
          rw [hpv, hpw]
          exact SpecStep.to_working hv hsi
    · have hn1 : n = "human_input" := h1
      have hn2 : n' = "verify_info" := h2
      rw [hn1] at hp
      rw [hn2] at hp'
      have hps : p = Phase.suspended := by
        have : node_phase "human_input" = some Phase.suspended := rfl
        rw [this] at hp
        exact (Option.some.inj hp).symm
      have hpv : p' = Phase.verify := by
        have : node_phase "verify_info" = some Phase.verify := rfl
        rw [this] at hp'
        exact (Option.some.inj hp').symm
      have hs' : s' = human_input v s := h3
      rw [hps, hpv, hs']
      exact SpecStep.to_verify v
    · have hn1 : n = "supervisor" := h1
      have hn2 : n' = "END" := h2
      rw [hn1] at hp
      rw [hn2] at hp'
      have hpw : p = Phase.working := by
        have : node_phase "supervisor" = some Phase.working := rfl
        rw [this] at hp
        exact (Option.some.inj hp).symm
      have hpd : p' = Phase.done := by
        have : node_phase "END" = some Phase.done := rfl
        rw [this] at hp'
        exact (Option.some.inj hp').symm
      have hs' : s' = wp s := h3
      rw [hpw, hpd, hs']
      exact SpecStep.to_done
  · intro h
    cases h with
    | to_working hv hsi =>
        have hn : n = "verify_info" := node_phase_verify_inv hp
        have hn' : n' = "supervisor" := node_phase_working_inv hp'
        rw [hn, hn']
        refine CodeStep.verify_edge hv ?_
        rw [hsi]
        decide
    | to_suspended hv hsi =>
        have hn : n = "verify_info" := node_phase_verify_inv hp
        have hn' : n' = "human_input" := node_phase_suspended_inv hp'
        rw [hn, hn']
        refine CodeStep.verify_edge hv ?_
        rw [hsi]
        decide
    | to_verify v =>
        have hn : n = "human_input" := node_phase_suspended_inv hp
        have hn' : n' = "verify_info" := node_phase_verify_inv hp'
        rw [hn, hn']
        exact CodeStep.resume_edge v rfl
    | to_done =>
        have hn : n = "supervisor" := node_phase_working_inv hp
        have hn' : n' = "END" := node_phase_done_inv hp'
        rw [hn, hn']
        exact CodeStep.work_edge rfl

/-- Witness for C9's conditional part: the correspondence evaluated at the
`supervisor → END` transition of a concrete state. -/
theorem graph_wiring_matches_transition_table_witness :
    CodeStep demo_oracles demo_pipeline
        (("supervisor", demo_verified_state) : String × State)
        ("END", demo_pipeline demo_verified_state) ↔
      SpecStep demo_oracles demo_pipeline ⟨Phase.working, demo_verified_state⟩
        ⟨Phase.done, demo_pipeline demo_verified_state⟩ :=
  (graph_wiring_matches_transition_table demo_oracles demo_pipeline).1
    "supervisor" "END" demo_verified_state (demo_pipeline demo_verified_state)
    Phase.working Phase.done rfl rfl

end Multiagent
